import Mathlib

/-!
Shallow embedding of the scoped object-resolution engine of
`src/lib/object-context.ts` (classes `ScopedObjectContext` and
`ScopedObjectContextDef`), together with models of the collaborator
interfaces that the file imports from `object-type.ts`,
`object-provider.ts` and `named-object.ts` (those files are not part of
this repository snapshot; their pieces are modelled from the spec and
marked as such).

Conventions of the embedding:
* A scope chain (`this` plus the `_parent` links) is a `List` whose head
  is the current scope and whose tail is the chain of ancestors.
* JS values are embedded as the inductive `JsValue` (string, number,
  boolean, null, array, object-with-string-keys, in insertion order).
* Thrown JS exceptions are embedded as `Except` errors carrying the data
  the source interpolates into the message.
* JS `Map` lookup built by repeated `set` over a declaration list is
  embedded as `lastByKey` (last declaration with a key wins).
* JS `Set` insertion is `addToSet` (insertion-ordered, deduplicating).
-/

set_option autoImplicit false

/-- Embedded JS values, as used for declaration payloads and created objects. -/
inductive JsValue : Type where
  | vstr : String → JsValue
  | vnum : Int → JsValue
  | vbool : Bool → JsValue
  | vnull : JsValue
  | varr : List JsValue → JsValue
  | vobj : List (String × JsValue) → JsValue

/-- First field of a JS object literal with the given key (objects cannot
have duplicate keys, so first match is the match). -/
def lookupField (fields : List (String × JsValue)) (key : String) : Option JsValue :=
  (fields.find? (fun p => p.1 == key)).map Prod.snd

mutual
/-- Rendering used to model `JSON.stringify` on embedded values (the source
interpolates `JSON.stringify(input)` into error messages). -/
def jsonStringify : JsValue → String
  | .vstr s => "\"" ++ s ++ "\""
  | .vnum n => toString n
  | .vbool b => if b then "true" else "false"
  | .vnull => "null"
  | .varr xs => "[" ++ jsonStringifyList xs ++ "]"
  | .vobj fs => "\x7b" ++ jsonStringifyFields fs ++ "\x7d"

def jsonStringifyList : List JsValue → String
  | [] => ""
  | [x] => jsonStringify x
  | x :: y :: rest => jsonStringify x ++ "," ++ jsonStringifyList (y :: rest)

def jsonStringifyFields : List (String × JsValue) → String
  | [] => ""
  | [(k, v)] => "\"" ++ k ++ "\":" ++ jsonStringify v
  | (k, v) :: p :: rest =>
      "\"" ++ k ++ "\":" ++ jsonStringify v ++ "," ++ jsonStringifyFields (p :: rest)
end

/-- Modelled from the spec: `Uri` of `object-provider.ts` (not under `src/`).
Only the pieces the core uses: the protocol (token before the first colon)
and the remaining path. -/
structure Uri where
  protocol : String
  path : String
deriving DecidableEq, Repr

/-- Splits a character list at the first colon, requiring a nonempty prefix. -/
def splitAtColon : List Char → Option (List Char × List Char)
  | [] => none
  | c :: rest =>
    if c = ':' then some ([], rest)
    else
      match splitAtColon rest with
      | some (p, q) => some (c :: p, q)
      | none => none

/-- Modelled from the spec: `Uri.tryParse` of `object-provider.ts` (not under
`src/`). Spec section 6: a reference parser, a pure total function; a string
matching the pattern protocol-colon-path succeeds, with the protocol being the
token before the first colon; anything else fails. -/
def uriTryParse (s : String) : Option Uri :=
  match splitAtColon s.toList with
  | some (p, q) => if p.isEmpty then none else some ⟨String.mk p, String.mk q⟩
  | none => none

/-- Modelled from the spec: the type declaration of `object-type.ts` (not under
`src/`); the core only consumes its `typeName` key (spec section 3:
type-name mapped to builder declaration). -/
structure TypeDef where
  typeName : String
deriving DecidableEq, Repr

/-- Modelled from the spec: the provider declaration of `object-provider.ts`
(not under `src/`); the core only consumes its `protocol` key. -/
structure ProviderDef where
  protocol : String
deriving DecidableEq, Repr

/-- Modelled from the spec: `ObjectContextDependency` of `named-object.ts`
(not under `src/`): three insertion-ordered, deduplicated sets of strings
(spec section 3, Dependency Set). -/
structure ObjectContextDependency where
  typeDependencies : List String
  protocolDependencies : List String
  objectDependencies : List String
deriving DecidableEq, Repr

/-- JS `Set.add`: insertion-ordered, ignores an element already present. -/
def addToSet (l : List String) (s : String) : List String :=
  if s ∈ l then l else l ++ [s]

/-- `setTypeDependency` of `ObjectContextDependency` (modelled from the spec). -/
def ObjectContextDependency.setTypeDependency
    (d : ObjectContextDependency) (t : String) : ObjectContextDependency :=
  { d with typeDependencies := addToSet d.typeDependencies t }

/-- `setProtocolDependency` of `ObjectContextDependency` (modelled from the spec). -/
def ObjectContextDependency.setProtocolDependency
    (d : ObjectContextDependency) (p : String) : ObjectContextDependency :=
  { d with protocolDependencies := addToSet d.protocolDependencies p }

/-- `setObjectDependency` of `ObjectContextDependency` (modelled from the spec). -/
def ObjectContextDependency.setObjectDependency
    (d : ObjectContextDependency) (n : String) : ObjectContextDependency :=
  { d with objectDependencies := addToSet d.objectDependencies n }

/-- The fresh dependency record `new ObjectContextDependency()`. -/
def emptyDeps : ObjectContextDependency := ⟨[], [], []⟩

/-- Modelled from the spec: `NamedObjectDef` of `named-object.ts` (not under
`src/`); the core consumes its `name`, raw `value` and the `dependencies`
record the analysis fills in. -/
structure NamedObjectDef where
  name : String
  value : JsValue
  dependencies : ObjectContextDependency


/-- Materialized named object (`NamedObject` of `named-object.ts`, modelled
from the spec and from the object literal built in `ScopedObjectContext.get`):
declaration, constructed value, owning scope label. The source field `def` is
a reserved word in Lean and is rendered `odef`. -/
structure NamedObject where
  odef : NamedObjectDef
  value : JsValue
  scope : String


/-- Modelled from the spec: the builder catalog (`ObjectFactory` built by
`TypeRegistry.fromDefinition`, `object-type.ts`, not under `src/`). Spec
section 6: exposes `supports(typeName)` and `create(rawInput, context)`.
Builders are external collaborators; they are embedded as pure value
transformers (the resolver-context argument is out of the specified core). -/
structure ObjectFactory where
  supports : String → Bool
  create : JsValue → JsValue

/-- Modelled from the spec: the resolver catalog (`ObjectProvider` built by
`ProviderRegistry.fromDefinition`, `object-provider.ts`, not under `src/`).
Spec section 6: exposes `supports(protocol)` and `provide(references,
context)`; the scalar call site passes a single reference, embedded here as a
one-element list. -/
structure ObjectProvider where
  supports : String → Bool
  provide : List Uri → JsValue

/-- One level of a `ScopedObjectContextDef` chain: the three declaration
lists held by the definition (`_typeDefs`, `_providerDefs`, `_objectDefs`).
A definition with its `_parent` links is a `List CtxLevel`, head first. -/
structure CtxLevel where
  typeDefs : List TypeDef
  providerDefs : List ProviderDef
  namedObjectDefs : List NamedObjectDef

/-- Lookup in the `Map` the definition constructor builds by iterating
`map.set` over a declaration list: the last declaration with the key wins. -/
def lastByKey {α : Type} (key : α → String) (l : List α) (name : String) : Option α :=
  l.foldl (fun acc d => if key d = name then some d else acc) none

/-- `ScopedObjectContextDef.getTypeDef`: local map first, then the parent
with `maxDepth - 1` hops of budget, `none` when the budget is exhausted or
the chain ends (source lines 388-395). -/
def ScopedObjectContextDef.getTypeDef :
    List CtxLevel → String → Nat → Option TypeDef
  | [], _, _ => none
  | lvl :: rest, typeName, maxDepth =>
    match lastByKey TypeDef.typeName lvl.typeDefs typeName with
    | some d => some d
    | none =>
      if 0 < maxDepth then ScopedObjectContextDef.getTypeDef rest typeName (maxDepth - 1)
      else none

/-- `ScopedObjectContextDef.getProviderDef` (source lines 403-409). -/
def ScopedObjectContextDef.getProviderDef :
    List CtxLevel → String → Nat → Option ProviderDef
  | [], _, _ => none
  | lvl :: rest, protocolName, maxDepth =>
    match lastByKey ProviderDef.protocol lvl.providerDefs protocolName with
    | some d => some d
    | none =>
      if 0 < maxDepth then ScopedObjectContextDef.getProviderDef rest protocolName (maxDepth - 1)
      else none

/-- `ScopedObjectContextDef.getNamedObjectDef` (source lines 417-423). -/
def ScopedObjectContextDef.getNamedObjectDef :
    List CtxLevel → String → Nat → Option NamedObjectDef
  | [], _, _ => none
  | lvl :: rest, name, maxDepth =>
    match lastByKey NamedObjectDef.name lvl.namedObjectDefs name with
    | some d => some d
    | none =>
      if 0 < maxDepth then ScopedObjectContextDef.getNamedObjectDef rest name (maxDepth - 1)
      else none

/-- The default-budget form of `getTypeDef` (source default `maxDepth = 32`). -/
def ScopedObjectContextDef.getTypeDefDefault (levels : List CtxLevel) (typeName : String) :
    Option TypeDef :=
  ScopedObjectContextDef.getTypeDef levels typeName 32

/-- The default-budget form of `getProviderDef` (source default `maxDepth = 32`). -/
def ScopedObjectContextDef.getProviderDefDefault (levels : List CtxLevel) (protocolName : String) :
    Option ProviderDef :=
  ScopedObjectContextDef.getProviderDef levels protocolName 32

/-- The default-budget form of `getNamedObjectDef` (source default `maxDepth = 32`). -/
def ScopedObjectContextDef.getNamedObjectDefDefault (levels : List CtxLevel) (name : String) :
    Option NamedObjectDef :=
  ScopedObjectContextDef.getNamedObjectDef levels name 32

/-- One level of a `ScopedObjectContext` chain: scope label, base directory,
this scope's definition level, the registries built from it, and the mutable
named-object cache (`_namedObjects`). A resolver with its `_parent` links is
a `List ScopeLevel`, head (requesting scope) first; the definition chain of
the k-th level is the `level` projection of the k-th suffix. -/
structure ScopeLevel where
  scope : String
  baseDir : String
  level : CtxLevel
  factory : ObjectFactory
  provider : ObjectProvider
  cache : List NamedObject

/-- The definition chain (`this._def` with its parents) of a resolver chain. -/
def defLevels (chain : List ScopeLevel) : List CtxLevel :=
  chain.map ScopeLevel.level

/-- Modelled from the spec: `NamedObjectRegistry.get` of `named-object.ts`
(not under `src/`): the named-value catalog keyed by object name. -/
def registryGet (cache : List NamedObject) (name : String) : Option NamedObject :=
  cache.find? (fun o => o.odef.name == name)

/-- Modelled from the spec: `NamedObjectRegistry.insert` of `named-object.ts`
(not under `src/`): insert-or-overwrite by name (spec sections 5 and 6). -/
def registryInsert (cache : List NamedObject) (o : NamedObject) : List NamedObject :=
  if cache.any (fun x => x.odef.name == o.odef.name) then
    cache.map (fun x => if x.odef.name == o.odef.name then o else x)
  else cache ++ [o]

/-- Scope label of the head (requesting) scope of a chain. -/
def chainScope : List ScopeLevel → String
  | [] => ""
  | l :: _ => l.scope

/-- Insert a materialized object into the head scope's cache
(`this._namedObjects.insert(namedObject)`). -/
def insertHead (chain : List ScopeLevel) (o : NamedObject) : List ScopeLevel :=
  match chain with
  | [] => []
  | l :: rest => { l with cache := registryInsert l.cache o } :: rest

/-- `ScopedObjectContext.selectFactory` walk (source lines 310-316): first
scope from the requester outward whose factory supports the type name;
`none` embeds the thrown unsupported-type error at the call site. -/
def selectFactory : List ScopeLevel → String → Option ObjectFactory
  | [], _ => none
  | l :: rest, typeName =>
    if l.factory.supports typeName then some l.factory else selectFactory rest typeName

/-- `ScopedObjectContext.selectProvider` walk (source lines 292-300). -/
def selectProvider : List ScopeLevel → String → Option ObjectProvider
  | [], _ => none
  | l :: rest, protocol =>
    if l.provider.supports protocol then some l.provider else selectProvider rest protocol

/-- The `input.every(uri => Uri.tryParse(uri))` step of `create` on an array
whose first element is a string (source lines 164-175): all elements must be
strings that parse as references; the collected references are returned,
otherwise `none` (and `create` returns the input unchanged). A non-string
element fails: the spec's reference parser is total and never throws, and
only successful parses are collected. -/
def parseAllUris : List JsValue → Option (List Uri)
  | [] => some []
  | .vstr s :: rest =>
    match uriTryParse s with
    | some u =>
      match parseAllUris rest with
      | some us => some (u :: us)
      | none => none
    | none => none
  | _ :: _ => none

/-- Errors thrown by `ScopedObjectContext.create` and its selection helpers,
carrying the data the source interpolates into the message. `typeError` is
the JS `TypeError` raised by `input.hasOwnProperty` when `input` is `null`
(in JS `typeof null` is the string `object`, so `null` reaches that branch). -/
inductive CreateErr : Type where
  | unsupportedProtocol : String → JsValue → CreateErr
  | unsupportedType : String → JsValue → CreateErr
  | typeError : String → CreateErr

/-- Message text of the modelled TypeError on a null property access. -/
def nullPropertyMsg : String := "TypeError: cannot read properties of null"

/-- Rendered message of a `create` error, matching the source concatenations
(lines 301-304 and 317-320). -/
def CreateErr.message : CreateErr → String
  | .unsupportedProtocol p input =>
    "Cannot create object, URI protocol '" ++ p ++ "' is not supported. Input="
      ++ jsonStringify input
  | .unsupportedType t input =>
    "Cannot create object, _type '" ++ t ++ "' is not supported. Input="
      ++ jsonStringify input
  | .typeError m => m

/-- Factory dispatch of `create` on a value carrying a `_type` tag (source
lines 180-184 and 203-207): the tag selects a factory by the
nearest-scope-first walk; no support anywhere is the thrown error. A tag
that is not a string can never match a key of the string-keyed registry
`Map`, so it always fails; its message rendering is approximated by
`jsonStringify`. -/
def createFromTagged (chain : List ScopeLevel) (tv : JsValue) (input : JsValue) :
    Except CreateErr JsValue :=
  match tv with
  | .vstr typeName =>
    match selectFactory chain typeName with
    | some factory => .ok (factory.create input)
    | none => .error (.unsupportedType typeName input)
  | _ => .error (.unsupportedType (jsonStringify tv) input)

/-- `ScopedObjectContext.create` (source lines 157-210): polymorphic over the
input shape. Branches, in source order: arrays (empty; first element a
string, so every element must parse as a reference, else the input is
returned unchanged; first element an object, dispatching on its `_type` tag
if it has one); reference strings; tagged objects; anything else returned
unchanged. `null` reaches the `typeof input` equals `object` branch (a JS
quirk) and the `hasOwnProperty` call on it throws a TypeError. -/
def ScopedObjectContext.create (chain : List ScopeLevel) (input : JsValue) :
    Except CreateErr JsValue :=
  match input with
  | .varr [] => .ok input
  | .varr (first :: rest) =>
    match first with
    | .vstr s =>
      match uriTryParse s with
      | none => .ok input
      | some u0 =>
        match parseAllUris rest with
        | none => .ok input
        | some us =>
          match selectProvider chain u0.protocol with
          | some provider => .ok (provider.provide (u0 :: us))
          | none => .error (.unsupportedProtocol u0.protocol input)
    | .vnull => .error (.typeError nullPropertyMsg)
    | .vobj fields =>
      match lookupField fields "_type" with
      | some tv => createFromTagged chain tv input
      | none => .ok input
    | _ => .ok input
  | .vstr s =>
    match uriTryParse s with
    | some uri =>
      match selectProvider chain uri.protocol with
      | some provider => .ok (provider.provide [uri])
      | none => .error (.unsupportedProtocol uri.protocol input)
    | none => .ok input
  | .vnull => .error (.typeError nullPropertyMsg)
  | .vobj fields =>
    match lookupField fields "_type" with
    | some tv => createFromTagged chain tv input
    | none => .ok input
  | _ => .ok input

/-- State-passing form of `create`: the method never writes any scope's
named-object cache (no `insert` occurs in its body), so the chain is
returned unchanged alongside the result. -/
def ScopedObjectContext.createS (chain : List ScopeLevel) (input : JsValue) :
    Except CreateErr JsValue × List ScopeLevel :=
  (ScopedObjectContext.create chain input, chain)

/-- `ScopedObjectContext.needsUpdate` (source lines 251-287): false at the
root; otherwise, for each of the three dependency kinds, the kind is
consulted only when this scope's own definition declares at least one entry
of that kind, and then an override is looked up in this scope's definition
chain with budget `depth - 1`. -/
def ScopedObjectContext.needsUpdate (chain : List ScopeLevel) (namedObject : NamedObject)
    (depth : Nat) : Bool :=
  match chain with
  | [] => false
  | self :: rest =>
    match rest with
    | [] => false
    | _ :: _ =>
      let overrides := defLevels (self :: rest)
      (!self.level.typeDefs.isEmpty &&
        namedObject.odef.dependencies.typeDependencies.any
          (fun t => (ScopedObjectContextDef.getTypeDef overrides t (depth - 1)).isSome)) ||
      (!self.level.providerDefs.isEmpty &&
        namedObject.odef.dependencies.protocolDependencies.any
          (fun p => (ScopedObjectContextDef.getProviderDef overrides p (depth - 1)).isSome)) ||
      (!self.level.namedObjectDefs.isEmpty &&
        namedObject.odef.dependencies.objectDependencies.any
          (fun n => (ScopedObjectContextDef.getNamedObjectDef overrides n (depth - 1)).isSome))

/-- The ancestor walk of `ScopedObjectContext.get` (source lines 223-244):
`chain` stays the full requesting chain (receiver of `needsUpdate`,
`create`, the scope label and the cache insert); `ancestors` is the suffix
still to visit; `depth` counts hops from the requester. -/
def ScopedObjectContext.getWalk (chain : List ScopeLevel) (ancestors : List ScopeLevel)
    (name : String) (depth : Nat) :
    Except CreateErr (Option NamedObject × List ScopeLevel) :=
  match ancestors with
  | [] => .ok (none, chain)
  | parent :: rest =>
    match registryGet parent.cache name with
    | some namedObject =>
      if ScopedObjectContext.needsUpdate chain namedObject depth then
        match ScopedObjectContext.create chain namedObject.odef.value with
        | .error e => .error e
        | .ok v =>
          let newObj : NamedObject := ⟨namedObject.odef, v, chainScope chain⟩
          .ok (some newObj, insertHead chain newObj)
      else .ok (some namedObject, chain)
    | none => ScopedObjectContext.getWalk chain rest name (depth + 1)

/-- `ScopedObjectContext.get` (source lines 215-246), state-passing: local
cache first, then the ancestor walk starting at depth 1; a rebuild (when
`needsUpdate` holds) re-creates the declaration's raw value with the
requesting chain as context, labels the result with the requesting scope
and inserts it into the requesting scope's cache. `none` is the source's
`null` result. -/
def ScopedObjectContext.get (chain : List ScopeLevel) (name : String) :
    Except CreateErr (Option NamedObject × List ScopeLevel) :=
  match chain with
  | [] => .ok (none, chain)
  | self :: rest =>
    match registryGet self.cache name with
    | some namedObject => .ok (some namedObject, self :: rest)
    | none => ScopedObjectContext.getWalk (self :: rest) rest name 1

/-- One registry pass of `forEach` (source lines 142-147): visit the cached
objects in catalog order, skipping names already visited, and return the
visited objects together with the grown visited set. -/
def visitObjects : List NamedObject → List String → List NamedObject × List String
  | [], visited => ([], visited)
  | o :: os, visited =>
    if o.odef.name ∈ visited then visitObjects os visited
    else
      let (r, v) := visitObjects os (o.odef.name :: visited)
      (o :: r, v)

/-- The scope-chain loop of `forEach` (source lines 140-149). -/
def forEachGo : List ScopeLevel → List String → List NamedObject
  | [], _ => []
  | lvl :: rest, visited =>
    let (r, v) := visitObjects lvl.cache visited
    r ++ forEachGo rest v

/-- `ScopedObjectContext.forEach` (source lines 138-150), embedded as the
sequence of named objects the callback is invoked on, in invocation order:
nearest scope first, each distinct name at most once. -/
def ScopedObjectContext.forEachVisits (chain : List ScopeLevel) : List NamedObject :=
  forEachGo chain []

/-- All cache entries of a chain in nearest-scope-first catalog order. -/
def chainObjects (chain : List ScopeLevel) : List NamedObject :=
  chain.flatMap ScopeLevel.cache

mutual
/-- `ScopedObjectContextDef.analyzeDirectDependencies` (source lines 512-529):
a string parsing as a reference contributes its protocol; a value of JS
`typeof` `object` contributes its `_type` tag (when present and non-null)
and is recursed into through all own properties in insertion order (for an
object literal the `_type` property itself is among them; for an array the
element indices are, and its `length` is a number, contributing nothing).
JS quirks embedded faithfully: `null` has `typeof` `object` and the
`jsValue` bracket `_type` bracket read on it throws a TypeError; a `_type`
value that is neither a string nor null would be added to the JS set as a
non-string member that can never match a declared (string) type name, and is
omitted from the string-typed set here. No branch ever contributes an
object-dependency. -/
def analyzeDirectDependencies (dep : ObjectContextDependency) (jsValue : JsValue) :
    Except String ObjectContextDependency :=
  match jsValue with
  | .vstr s =>
    match uriTryParse s with
    | some u => .ok (dep.setProtocolDependency u.protocol)
    | none => .ok dep
  | .vnull => .error nullPropertyMsg
  | .vobj fields =>
    let dep1 :=
      match lookupField fields "_type" with
      | some (.vstr t) => dep.setTypeDependency t
      | _ => dep
    analyzeDirectFields dep1 fields
  | .varr elems => analyzeDirectList dep elems
  | _ => .ok dep

/-- Recursion of `analyzeDirectDependencies` into the own properties of an
object literal, in insertion order. -/
def analyzeDirectFields (dep : ObjectContextDependency) :
    List (String × JsValue) → Except String ObjectContextDependency
  | [] => .ok dep
  | (_, v) :: rest =>
    match analyzeDirectDependencies dep v with
    | .error e => .error e
    | .ok dep1 => analyzeDirectFields dep1 rest

/-- Recursion of `analyzeDirectDependencies` into the elements of an array. -/
def analyzeDirectList (dep : ObjectContextDependency) :
    List JsValue → Except String ObjectContextDependency
  | [] => .ok dep
  | v :: rest =>
    match analyzeDirectDependencies dep v with
    | .error e => .error e
    | .ok dep1 => analyzeDirectList dep1 rest
end

/-- Errors aborting scope-definition construction (dependency analysis,
source lines 429-509): the TypeError propagated out of the direct-dependency
walk, the unrecognized-type and unrecognized-protocol errors of the first
pass (each naming the offending name and the referencing named object), and
the stuck-objects error of the closure loop. -/
inductive AnalysisErr : Type where
  | typeThrown : String → AnalysisErr
  | unrecognizedType : String → String → AnalysisErr
  | unrecognizedProtocol : String → String → AnalysisErr
  | unresolvedObjects : List String → AnalysisErr
deriving DecidableEq

/-- The first pass of `analyzeNamedObjectDependencies` on one declaration
(source lines 431-450): reset the dependency record, extract direct
dependencies, then fail on the first extracted type dependency with no
builder declaration reachable with the default budget of 32, then on the
first extracted protocol dependency with no resolver declaration. -/
def analyzeOneDef (levels : List CtxLevel) (d : NamedObjectDef) :
    Except AnalysisErr NamedObjectDef :=
  match analyzeDirectDependencies emptyDeps d.value with
  | .error m => .error (.typeThrown m)
  | .ok deps =>
    match deps.typeDependencies.find?
        (fun t => (ScopedObjectContextDef.getTypeDef levels t 32).isNone) with
    | some t => .error (.unrecognizedType t d.name)
    | none =>
      match deps.protocolDependencies.find?
          (fun p => (ScopedObjectContextDef.getProviderDef levels p 32).isNone) with
      | some p => .error (.unrecognizedProtocol p d.name)
      | none => .ok { d with dependencies := deps }

/-- The first pass of `analyzeNamedObjectDependencies` over all declarations
of the scope, in declaration order. -/
def analyzePass1 (levels : List CtxLevel) :
    List NamedObjectDef → Except AnalysisErr (List NamedObjectDef)
  | [] => .ok []
  | d :: ds =>
    match analyzeOneDef levels d with
    | .error e => .error e
    | .ok d1 =>
      match analyzePass1 levels ds with
      | .error e => .error e
      | .ok ds1 => .ok (d1 :: ds1)

/-- A record of the closure-resolution work list (source line 455):
the set of still-unresolved direct object-dependency names, and the
declaration whose closure is being built (source field `def`). -/
structure ResolveRecord where
  unresolvedDeps : List String
  odef : NamedObjectDef

/-- JS `Map.get` on an association list. -/
def lookupAssoc (m : List (String × List String)) (k : String) : Option (List String) :=
  (m.find? (fun p => p.1 == k)).map Prod.snd

/-- JS `Map.set` on an association list: overwrite the key if present,
append otherwise. -/
def setAssoc (m : List (String × List String)) (k : String) (v : List String) :
    List (String × List String) :=
  if m.any (fun p => p.1 == k) then m.map (fun p => if p.1 == k then (k, v) else p)
  else m ++ [(k, v)]

/-- Work-list construction of the closure pass (source lines 458-473):
declarations with object-dependencies become records to resolve, the others
are immediately entered into the resolved map with their (empty) closure. -/
def buildResolution : List NamedObjectDef → List (String × List String) →
    List (String × List String) × List ResolveRecord
  | [], resolved => (resolved, [])
  | d :: ds, resolved =>
    if d.dependencies.objectDependencies.isEmpty then
      buildResolution ds (setAssoc resolved d.name d.dependencies.objectDependencies)
    else
      let (res, recs) := buildResolution ds resolved
      (res, ⟨d.dependencies.objectDependencies, d⟩ :: recs)

/-- One round of the multi-round resolution (source lines 480-501), returning
the grown resolved map, the declarations resolved this round (in order) and
the remaining records. The source reads
`let unresolvedDeps = Object.keys(record.unresolvedDeps)` where
`record.unresolvedDeps` is a JS `Set`; `Object.keys` returns the own
enumerable string-keyed properties, and a `Set` keeps its elements in an
internal slot, not as own properties, so this is always the empty array.
The absorb loop below therefore iterates zero times and the
`unresolvedDeps.length == 0` test on that same array always succeeds. -/
def resolveRound (resolved : List (String × List String)) :
    List ResolveRecord →
    List (String × List String) × List NamedObjectDef × List ResolveRecord
  | [] => (resolved, [], [])
  | record :: rest =>
    let unresolvedKeys : List String := []
    let record1 := unresolvedKeys.foldl
      (fun r dep =>
        match lookupAssoc resolved dep with
        | some depClosure =>
          let newDeps :=
            depClosure.foldl (fun dd n => dd.setObjectDependency n) r.odef.dependencies
          { unresolvedDeps := r.unresolvedDeps.filter (fun x => !(x == dep)),
            odef := { r.odef with dependencies := newDeps } }
        | none => r) record
    if unresolvedKeys.length == 0 then
      let resolved1 :=
        setAssoc resolved record1.odef.name record1.odef.dependencies.objectDependencies
      let (resolvedF, resolvedDefs, remaining) := resolveRound resolved1 rest
      (resolvedF, record1.odef :: resolvedDefs, remaining)
    else
      let (resolvedF, resolvedDefs, remaining) := resolveRound resolved rest
      (resolvedF, resolvedDefs, record1 :: remaining)

/-- The multi-round resolution loop (source lines 476-508): rounds run until
the work list empties; a round that resolves nothing while records remain
throws the undefined-or-cyclic error listing the stuck object names. Returns
the declarations in resolution order. -/
def resolveLoop (resolved : List (String × List String)) (toResolve : List ResolveRecord) :
    Except AnalysisErr (List NamedObjectDef) :=
  match toResolve with
  | [] => .ok []
  | t :: ts =>
    let out := resolveRound resolved (t :: ts)
    if out.2.1.length == 0 then
      .error (.unresolvedObjects ((t :: ts).map (fun r => r.odef.name)))
    else
      match resolveLoop out.1 out.2.2 with
      | .error e => .error e
      | .ok ds => .ok (out.2.1 ++ ds)
termination_by toResolve.length
decreasing_by
  have h : ∀ (res : List (String × List String)) (rs : List ResolveRecord),
      (resolveRound res rs).2.2 = [] := by
    intro res rs
    induction rs generalizing res with
    | nil => rfl
    | cons a l ih => simp [resolveRound, ih]
  simp [h]

/-- Recollect a declaration by name from the resolution output. -/
def findByName (ds : List NamedObjectDef) (n : String) : Option NamedObjectDef :=
  ds.find? (fun d => d.name == n)

/-- `ScopedObjectContextDef.analyzeNamedObjectDependencies` (source lines
429-509): the first pass (direct extraction plus type and protocol checks)
followed by the closure work-list construction and the multi-round
resolution; the declarations, with the dependency records the analysis left
on them, are returned. -/
def analyzeNamedObjectDependencies (levels : List CtxLevel)
    (objectDefs : List NamedObjectDef) : Except AnalysisErr (List NamedObjectDef) :=
  match analyzePass1 levels objectDefs with
  | .error e => .error e
  | .ok defs1 =>
    let (resolved0, toResolve) := buildResolution defs1 []
    match resolveLoop resolved0 toResolve with
    | .error e => .error e
    | .ok resolvedDefs =>
      .ok (defs1.map (fun d => (findByName resolvedDefs d.name).getD d))

/-- The `ScopedObjectContextDef` constructor (source lines 345-375): record
the three declaration lists as a new head level of the definition chain and,
when dependency analysis is enabled, run it (its error aborts construction). -/
def ScopedObjectContextDef.construct (parentLevels : List CtxLevel)
    (typeDefs : List TypeDef) (providerDefs : List ProviderDef)
    (objectDefs : List NamedObjectDef) (enableDependencyAnalysis : Bool) :
    Except AnalysisErr (List CtxLevel) :=
  let lvl : CtxLevel := ⟨typeDefs, providerDefs, objectDefs⟩
  if enableDependencyAnalysis then
    match analyzeNamedObjectDependencies (lvl :: parentLevels) objectDefs with
    | .error e => .error e
    | .ok ds1 => .ok (⟨typeDefs, providerDefs, ds1⟩ :: parentLevels)
  else .ok (lvl :: parentLevels)

/-- Raw declaration value of the running example: a tagged object of type
tag `T` (the spec section 8 example, with `T` for `Number`). -/
def baseRaw : JsValue := .vobj [("_type", .vstr "T")]

/-- Dependency record of the example object, as the first analysis pass
computes it for `baseRaw`. -/
def baseDeps : ObjectContextDependency := ⟨["T"], [], []⟩

/-- Declaration of the example named object `base`. -/
def baseDef : NamedObjectDef := ⟨"base", baseRaw, baseDeps⟩

/-- The example object as materialized at the global scope. -/
def baseGlobalObj : NamedObject := ⟨baseDef, .vstr "global-built", "global"⟩

/-- Declaration of the builder for type tag `T`. -/
def tDef : TypeDef := ⟨"T"⟩

/-- Builder catalog of the global scope: supports `T`. -/
def globalFactory : ObjectFactory := ⟨fun t => t == "T", fun _ => .vstr "global-built"⟩

/-- Builder catalog of the application scope: overrides `T`. -/
def appFactory : ObjectFactory := ⟨fun t => t == "T", fun _ => .vstr "app-built"⟩

/-- An empty builder catalog. -/
def noFactory : ObjectFactory := ⟨fun _ => false, fun v => v⟩

/-- An empty resolver catalog. -/
def noProvider : ObjectProvider := ⟨fun _ => false, fun _ => .vnull⟩

/-- Global scope of the example: declares the builder `T` and the named
object `base`, whose materialized value sits in the cache. -/
def globalLevel : ScopeLevel :=
  ⟨"global", "", ⟨[tDef], [], [baseDef]⟩, globalFactory, noProvider, [baseGlobalObj]⟩

/-- Application scope of the example: overrides the builder `T`, declares no
named objects. -/
def appLevel : ScopeLevel :=
  ⟨"application", "", ⟨[tDef], [], []⟩, appFactory, noProvider, []⟩

/-- Request scope of the example: declares nothing of its own. -/
def requestLevel : ScopeLevel :=
  ⟨"request", "", ⟨[], [], []⟩, noFactory, noProvider, []⟩

/-- The request-scope resolver chain of the example. -/
def requestChain : List ScopeLevel := [requestLevel, appLevel, globalLevel]

/-- The application-scope resolver chain of the example. -/
def appChain : List ScopeLevel := [appLevel, globalLevel]

/-- The example object as rebuilt at the application scope. -/
def baseAppObj : NamedObject := ⟨baseDef, .vstr "app-built", "application"⟩

/-- Work-list records of a two-object cycle: `A` depends on `B` and `B`
depends on `A` (dependency sets as the claim states them). -/
def cycleDefA : NamedObjectDef := ⟨"A", .vnum 0, ⟨[], [], ["B"]⟩⟩

/-- Second declaration of the two-object cycle. -/
def cycleDefB : NamedObjectDef := ⟨"B", .vnum 1, ⟨[], [], ["A"]⟩⟩

/-- The cyclic work list fed to the multi-round resolution. -/
def cycleRecords : List ResolveRecord := [⟨["B"], cycleDefA⟩, ⟨["A"], cycleDefB⟩]

/-- Acyclic four-object chain: `A` depends on `B`, `B` on `C`, `C` on `D`,
`D` on nothing. -/
def chainDefA : NamedObjectDef := ⟨"A", .vnum 0, ⟨[], [], ["B"]⟩⟩

/-- Second declaration of the acyclic chain. -/
def chainDefB : NamedObjectDef := ⟨"B", .vnum 1, ⟨[], [], ["C"]⟩⟩

/-- Third declaration of the acyclic chain. -/
def chainDefC : NamedObjectDef := ⟨"C", .vnum 2, ⟨[], [], ["D"]⟩⟩

/-- Work list of the acyclic chain (`D`, with no object-dependencies, is
already in the resolved map). -/
def chainRecords : List ResolveRecord :=
  [⟨["B"], chainDefA⟩, ⟨["C"], chainDefB⟩, ⟨["D"], chainDefC⟩]

/-- Example declaration for the unrecognized-type scenario: a named object
whose value is tagged with the undeclared type `T`. -/
def orphanDef : NamedObjectDef := ⟨"obj1", .vobj [("_type", .vstr "T")], emptyDeps⟩

/-- A definition level declaring nothing. -/
def emptyCtxLevel : CtxLevel := ⟨[], [], []⟩

lemma getTypeDef_eq_findSome? :
    ∀ (levels : List CtxLevel) (name : String) (n : Nat),
      ScopedObjectContextDef.getTypeDef levels name n =
        (levels.take (n + 1)).findSome?
          (fun lvl => lastByKey TypeDef.typeName lvl.typeDefs name)
  | [], name, n => by simp [ScopedObjectContextDef.getTypeDef]
  | lvl :: rest, name, n => by
    rw [ScopedObjectContextDef.getTypeDef]
    cases h : lastByKey TypeDef.typeName lvl.typeDefs name with
    | some d => simp [List.findSome?, h]
    | none =>
      cases n with
      | zero => simp [List.findSome?, h]
      | succ m => simp [List.findSome?, h, getTypeDef_eq_findSome? rest name m]

lemma getProviderDef_eq_findSome? :
    ∀ (levels : List CtxLevel) (name : String) (n : Nat),
      ScopedObjectContextDef.getProviderDef levels name n =
        (levels.take (n + 1)).findSome?
          (fun lvl => lastByKey ProviderDef.protocol lvl.providerDefs name)
  | [], name, n => by simp [ScopedObjectContextDef.getProviderDef]
  | lvl :: rest, name, n => by
    rw [ScopedObjectContextDef.getProviderDef]
    cases h : lastByKey ProviderDef.protocol lvl.providerDefs name with
    | some d => simp [List.findSome?, h]
    | none =>
      cases n with
      | zero => simp [List.findSome?, h]
      | succ m => simp [List.findSome?, h, getProviderDef_eq_findSome? rest name m]

lemma getNamedObjectDef_eq_findSome? :
    ∀ (levels : List CtxLevel) (name : String) (n : Nat),
      ScopedObjectContextDef.getNamedObjectDef levels name n =
        (levels.take (n + 1)).findSome?
          (fun lvl => lastByKey NamedObjectDef.name lvl.namedObjectDefs name)
  | [], name, n => by simp [ScopedObjectContextDef.getNamedObjectDef]
  | lvl :: rest, name, n => by
    rw [ScopedObjectContextDef.getNamedObjectDef]
    cases h : lastByKey NamedObjectDef.name lvl.namedObjectDefs name with
    | some d => simp [List.findSome?, h]
    | none =>
      cases n with
      | zero => simp [List.findSome?, h]
      | succ m => simp [List.findSome?, h, getNamedObjectDef_eq_findSome? rest name m]

/-- C8: the three definition lookups each return the mapped declaration of
the nearest definition level among the requester and its first `n` ancestors
(the local mapping first, then the parent with budget `n - 1`), and `none`
when the name is mapped nowhere among those levels; the budget defaults
to 32. `List.findSome?` over `levels.take (n + 1)` is exactly that
nearest-first search, and `lastByKey` is the mapping each constructor built
from its declaration list. -/
theorem winery_c8_lookup_contract (levels : List CtxLevel) (name : String) (n : Nat) :
    ScopedObjectContextDef.getTypeDef levels name n =
      (levels.take (n + 1)).findSome?
        (fun lvl => lastByKey TypeDef.typeName lvl.typeDefs name) ∧
    ScopedObjectContextDef.getProviderDef levels name n =
      (levels.take (n + 1)).findSome?
        (fun lvl => lastByKey ProviderDef.protocol lvl.providerDefs name) ∧
    ScopedObjectContextDef.getNamedObjectDef levels name n =
      (levels.take (n + 1)).findSome?
        (fun lvl => lastByKey NamedObjectDef.name lvl.namedObjectDefs name) ∧
    ScopedObjectContextDef.getTypeDefDefault levels name =
      ScopedObjectContextDef.getTypeDef levels name 32 ∧
    ScopedObjectContextDef.getProviderDefDefault levels name =
      ScopedObjectContextDef.getProviderDef levels name 32 ∧
    ScopedObjectContextDef.getNamedObjectDefDefault levels name =
      ScopedObjectContextDef.getNamedObjectDef levels name 32 :=
  ⟨getTypeDef_eq_findSome? levels name n, getProviderDef_eq_findSome? levels name n,
   getNamedObjectDef_eq_findSome? levels name n, rfl, rfl, rfl⟩

lemma visitObjects_append :
    ∀ (xs ys : List NamedObject) (vis : List String),
      visitObjects (xs ++ ys) vis =
        ((visitObjects xs vis).1 ++ (visitObjects ys (visitObjects xs vis).2).1,
         (visitObjects ys (visitObjects xs vis).2).2)
  | [], ys, vis => by simp [visitObjects]
  | o :: os, ys, vis => by
    by_cases h : o.odef.name ∈ vis
    · simp [visitObjects, h, visitObjects_append os ys vis]
    · simp [visitObjects, h, visitObjects_append os ys (o.odef.name :: vis)]

lemma forEachGo_eq_visitObjects :
    ∀ (chain : List ScopeLevel) (vis : List String),
      forEachGo chain vis = (visitObjects (chainObjects chain) vis).1
  | [], vis => by simp [forEachGo, chainObjects, visitObjects]
  | lvl :: rest, vis => by
    simp only [forEachGo, chainObjects, List.flatMap_cons, visitObjects_append,
      forEachGo_eq_visitObjects rest]

lemma visitObjects_find? :
    ∀ (xs : List NamedObject) (vis : List String) (n : String),
      (visitObjects xs vis).1.find? (fun o => o.odef.name == n) =
        if n ∈ vis then none else xs.find? (fun o => o.odef.name == n)
  | [], vis, n => by simp [visitObjects]
  | o :: os, vis, n => by
    by_cases h : o.odef.name ∈ vis
    · by_cases hn : o.odef.name = n
      · subst hn
        simp [visitObjects, h, visitObjects_find? os vis o.odef.name, List.find?_cons]
      · have : (o.odef.name == n) = false := by simp [hn]
        simp [visitObjects, h, visitObjects_find? os vis n, List.find?_cons, this]
    · by_cases hn : o.odef.name = n
      · subst hn
        simp [visitObjects, h, List.find?_cons]
      · have hbeq : (o.odef.name == n) = false := by simp [hn]
        have hrec := visitObjects_find? os (o.odef.name :: vis) n
        have hmem : (n ∈ o.odef.name :: vis) ↔ (n ∈ vis) := by
          constructor
          · intro hx
            cases hx with
            | head => exact absurd rfl (fun hh => hn hh.symm)
            | tail _ hx => exact hx
          · intro hx
            exact List.mem_cons_of_mem _ hx
        by_cases hv : n ∈ vis
        · simp [visitObjects, h, List.find?_cons, hbeq, hrec, hmem, hv]
        · simp [visitObjects, h, List.find?_cons, hbeq, hrec, hmem, hv]

lemma visitObjects_nodup :
    ∀ (xs : List NamedObject) (vis : List String),
      ((visitObjects xs vis).1.map (fun o => o.odef.name)).Nodup ∧
      (∀ o ∈ (visitObjects xs vis).1, o.odef.name ∉ vis)
  | [], vis => by simp [visitObjects]
  | o :: os, vis => by
    by_cases h : o.odef.name ∈ vis
    · have ih := visitObjects_nodup os vis
      simpa [visitObjects, h] using ih
    · have ih := visitObjects_nodup os (o.odef.name :: vis)
      simp only [visitObjects, h, if_false, ite_false]
      constructor
      · simp only [List.map_cons, List.nodup_cons]
        constructor
        · intro hmem
          rcases List.mem_map.mp hmem with ⟨x, hx, hxeq⟩
          have := ih.2 x hx
          exact this (hxeq ▸ List.mem_cons_self _ _)
        · exact ih.1
      · intro x hx
        cases hx with
        | head => exact h
        | tail _ hx =>
          have := ih.2 x hx
          intro hv
          exact this (List.mem_cons_of_mem _ hv)

lemma countP_name_of_nodup (L : List NamedObject) (n : String)
    (hd : (L.map (fun o => o.odef.name)).Nodup) :
    L.countP (fun o => o.odef.name == n) =
      if L.any (fun o => o.odef.name == n) then 1 else 0 :=
  by
  by_cases ha : L.any (fun o => o.odef.name == n)
  · simp only [ha, if_true]
    rcases List.any_eq_true.mp ha with ⟨x, hx, hpx⟩
    have hmem : n ∈ L.map (fun o => o.odef.name) :=
      List.mem_map.mpr ⟨x, hx, by simpa using hpx⟩
    have hcount : (L.map (fun o => o.odef.name)).count n = 1 :=
      List.count_eq_one_of_mem hd hmem
    calc L.countP (fun o => o.odef.name == n)
        = (L.map (fun o => o.odef.name)).countP (fun x => x == n) := by
          rw [List.countP_map]; rfl
      _ = (L.map (fun o => o.odef.name)).count n := rfl
      _ = 1 := hcount
  · simp only [ha, if_false]
    have := List.any_eq_true.not.mp ha
    push_neg at this
    exact List.countP_eq_zero.mpr (by
      intro a haL
      have := this a haL
      simpa using this)

/-- C7: `forEach` visits each distinct name visible anywhere in the chain
exactly once, walking nearest-scope-first, and for a name declared at
several levels the visited object is the one found first in
nearest-scope-first catalog order (the shadowed ancestor entries are
skipped): the visited names are duplicate-free, the visit list agrees with
the full nearest-first concatenation on `find?` per name, and the visit
count per name is one exactly when the name is visible somewhere. -/
theorem winery_c7_forEach_once_nearest (chain : List ScopeLevel) (n : String) :
    ((ScopedObjectContext.forEachVisits chain).map (fun o => o.odef.name)).Nodup ∧
    (ScopedObjectContext.forEachVisits chain).find? (fun o => o.odef.name == n) =
      (chainObjects chain).find? (fun o => o.odef.name == n) ∧
    (ScopedObjectContext.forEachVisits chain).countP (fun o => o.odef.name == n) =
      (if (chainObjects chain).any (fun o => o.odef.name == n) then 1 else 0) :=
  by
  have hL : ScopedObjectContext.forEachVisits chain =
      (visitObjects (chainObjects chain) []).1 := forEachGo_eq_visitObjects chain []
  have hnd := (visitObjects_nodup (chainObjects chain) []).1
  have hfind := visitObjects_find? (chainObjects chain) [] n
  simp only [List.not_mem_nil, if_false, ite_false] at hfind
  have hany : (visitObjects (chainObjects chain) []).1.any (fun o => o.odef.name == n) =
      (chainObjects chain).any (fun o => o.odef.name == n) := by
    rw [Bool.eq_iff_iff, List.any_eq_true, List.any_eq_true]
    constructor
    · rintro ⟨x, hx, hp⟩
      have h1 : (((visitObjects (chainObjects chain) []).1.find?
          (fun o => o.odef.name == n))).isSome := List.find?_isSome.mpr ⟨x, hx, hp⟩
      rw [hfind] at h1
      rcases Option.isSome_iff_exists.mp h1 with ⟨y, hy⟩
      have hpy := List.find?_some hy
      exact ⟨y, List.mem_of_find?_eq_some hy, hpy⟩
    · rintro ⟨x, hx, hp⟩
      have h1 : (((chainObjects chain).find? (fun o => o.odef.name == n))).isSome :=
        List.find?_isSome.mpr ⟨x, hx, hp⟩
      rw [← hfind] at h1
      rcases Option.isSome_iff_exists.mp h1 with ⟨y, hy⟩
      have hpy := List.find?_some hy
      exact ⟨y, List.mem_of_find?_eq_some hy, hpy⟩
  refine ⟨by rw [hL]; exact hnd, by rw [hL]; exact hfind, ?_⟩
  rw [hL, countP_name_of_nodup _ n hnd, hany]

/-- C4: `create` passes non-constructible inputs through unchanged — the
empty sequence, a sequence of strings of which one fails reference parsing,
a scalar non-reference string, numbers, booleans, untagged objects,
sequences dispatching on no first element — for every resolver chain;
except that the input `null` is not passed through: in JS `typeof null` is
the string `object`, so `null` reaches the tagged-object branch and the
`hasOwnProperty` call on it throws a TypeError (the claim fails on the code
exactly there). -/
theorem winery_c4_create_passthrough_except_null (chain : List ScopeLevel) :
    ScopedObjectContext.create chain (.varr []) = .ok (.varr []) ∧
    ScopedObjectContext.create chain (.vstr "hello") = .ok (.vstr "hello") ∧
    ScopedObjectContext.create chain (.varr [.vstr "a:b", .vstr "hello"]) =
      .ok (.varr [.vstr "a:b", .vstr "hello"]) ∧
    ScopedObjectContext.create chain (.varr [.vstr "nocolon", .vstr "a:b"]) =
      .ok (.varr [.vstr "nocolon", .vstr "a:b"]) ∧
    ScopedObjectContext.create chain (.vnum 42) = .ok (.vnum 42) ∧
    ScopedObjectContext.create chain (.vbool true) = .ok (.vbool true) ∧
    ScopedObjectContext.create chain (.vobj [("a", .vnum 1)]) = .ok (.vobj [("a", .vnum 1)]) ∧
    ScopedObjectContext.create chain (.varr [.vnum 1]) = .ok (.varr [.vnum 1]) ∧
    ScopedObjectContext.create chain .vnull = .error (.typeError nullPropertyMsg) :=
  ⟨rfl, rfl, rfl, rfl, rfl, rfl, rfl, rfl, rfl⟩

lemma selectFactory_eq_none :
    ∀ (chain : List ScopeLevel) (t : String),
      (∀ lvl ∈ chain, lvl.factory.supports t = false) → selectFactory chain t = none
  | [], t, _ => rfl
  | l :: rest, t, h => by
    have hl := h l (List.mem_cons_self _ _)
    simp [selectFactory, hl]
    exact selectFactory_eq_none rest t (fun lvl hm => h lvl (List.mem_cons_of_mem _ hm))

lemma selectProvider_eq_none :
    ∀ (chain : List ScopeLevel) (p : String),
      (∀ lvl ∈ chain, lvl.provider.supports p = false) → selectProvider chain p = none
  | [], p, _ => rfl
  | l :: rest, p, h => by
    have hl := h l (List.mem_cons_self _ _)
    simp [selectProvider, hl]
    exact selectProvider_eq_none rest p (fun lvl hm => h lvl (List.mem_cons_of_mem _ hm))

/-- C5: when no scope from the requester to the root supports the type tag
of a tagged object, or the protocol of a reference string, `create` raises
the specific error carrying that tag (resp. protocol) and the offending
input, whose rendered message names the unsupported name and echoes the
input; and the state-passing form returns every scope's cache unchanged
(the method body performs no cache insert), so subsequent calls see the
chain exactly as before the failing call. -/
theorem winery_c5_selection_failure (chain : List ScopeLevel)
    (fields : List (String × JsValue)) (t : String) (s : String) (u : Uri)
    (htag : lookupField fields "_type" = some (.vstr t))
    (hft : ∀ lvl ∈ chain, lvl.factory.supports t = false)
    (hu : uriTryParse s = some u)
    (hpr : ∀ lvl ∈ chain, lvl.provider.supports u.protocol = false) :
    ScopedObjectContext.create chain (.vobj fields) =
      .error (.unsupportedType t (.vobj fields)) ∧
    (CreateErr.unsupportedType t (.vobj fields)).message =
      "Cannot create object, _type '" ++ t ++ "' is not supported. Input="
        ++ jsonStringify (.vobj fields) ∧
    ScopedObjectContext.create chain (.vstr s) =
      .error (.unsupportedProtocol u.protocol (.vstr s)) ∧
    (CreateErr.unsupportedProtocol u.protocol (.vstr s)).message =
      "Cannot create object, URI protocol '" ++ u.protocol ++ "' is not supported. Input="
        ++ jsonStringify (.vstr s) ∧
    ScopedObjectContext.createS chain (.vobj fields) =
      (.error (.unsupportedType t (.vobj fields)), chain) ∧
    ScopedObjectContext.createS chain (.vstr s) =
      (.error (.unsupportedProtocol u.protocol (.vstr s)), chain) :=
  by
  have h1 : ScopedObjectContext.create chain (.vobj fields) =
      .error (.unsupportedType t (.vobj fields)) := by
    simp [ScopedObjectContext.create, htag, createFromTagged,
      selectFactory_eq_none chain t hft]
  have h2 : ScopedObjectContext.create chain (.vstr s) =
      .error (.unsupportedProtocol u.protocol (.vstr s)) := by
    simp [ScopedObjectContext.create, hu, selectProvider_eq_none chain u.protocol hpr]
  exact ⟨h1, rfl, h2, rfl, by simp [ScopedObjectContext.createS, h1],
    by simp [ScopedObjectContext.createS, h2]⟩

/-- Witness for C5 at a concrete one-level chain supporting nothing. -/
theorem winery_c5_selection_failure_witness :
    ScopedObjectContext.create [requestLevel] (.vobj [("_type", .vstr "Foo")]) =
      .error (.unsupportedType "Foo" (.vobj [("_type", .vstr "Foo")])) ∧
    ScopedObjectContext.create [requestLevel] (.vstr "x:y") =
      .error (.unsupportedProtocol "x" (.vstr "x:y")) :=
  by
  have h := winery_c5_selection_failure [requestLevel] [("_type", .vstr "Foo")] "Foo" "x:y"
    ⟨"x", "y"⟩ rfl
    (by intro lvl hm; simp at hm; subst hm; rfl)
    rfl
    (by intro lvl hm; simp at hm; subst hm; rfl)
  exact ⟨h.1, h.2.2.1⟩

lemma getWalk_skip :
    ∀ (pre rest chain : List ScopeLevel) (name : String) (d : Nat),
      (∀ p ∈ pre, registryGet p.cache name = none) →
      ScopedObjectContext.getWalk chain (pre ++ rest) name d =
        ScopedObjectContext.getWalk chain rest name (d + pre.length)
  | [], rest, chain, name, d, _ => by simp
  | p :: ps, rest, chain, name, d, h => by
    have hp := h p (List.mem_cons_self _ _)
    rw [List.cons_append, ScopedObjectContext.getWalk]
    simp only [hp]
    rw [getWalk_skip ps rest chain name (d + 1)
      (fun q hq => h q (List.mem_cons_of_mem _ hq))]
    congr 1
    simp [List.length_cons]
    omega

lemma get_found_in_ancestor (self owner : ScopeLevel) (pre post : List ScopeLevel)
    (name : String) (obj : NamedObject)
    (hself : registryGet self.cache name = none)
    (hpre : ∀ p ∈ pre, registryGet p.cache name = none)
    (howner : registryGet owner.cache name = some obj)
    (hnu : ScopedObjectContext.needsUpdate (self :: (pre ++ owner :: post)) obj
      (1 + pre.length) = false) :
    ScopedObjectContext.get (self :: (pre ++ owner :: post)) name =
      .ok (some obj, self :: (pre ++ owner :: post)) :=
  by
  rw [ScopedObjectContext.get]
  simp only [hself]
  rw [getWalk_skip pre (owner :: post) _ name 1 hpre]
  rw [ScopedObjectContext.getWalk]
  simp [howner, hnu]

/-- C9: when `get` misses locally and first hits at an ancestor whose object
needs no update, the very object held by the ancestor is returned (shared,
not copied) and every scope's named-object cache — the whole chain — is
returned unchanged. -/
theorem winery_c9_get_returns_shared_ancestor_object (self owner : ScopeLevel)
    (pre post : List ScopeLevel) (name : String) (obj : NamedObject)
    (hself : registryGet self.cache name = none)
    (hpre : ∀ p ∈ pre, registryGet p.cache name = none)
    (howner : registryGet owner.cache name = some obj)
    (hnu : ScopedObjectContext.needsUpdate (self :: (pre ++ owner :: post)) obj
      (1 + pre.length) = false) :
    ScopedObjectContext.get (self :: (pre ++ owner :: post)) name =
      .ok (some obj, self :: (pre ++ owner :: post)) :=
  get_found_in_ancestor self owner pre post name obj hself hpre howner hnu

/-- Witness for C9: a two-level chain, request scope over the global scope
owning `base`; the hit is returned as-is and the chain is unchanged. -/
theorem winery_c9_get_returns_shared_ancestor_object_witness :
    ScopedObjectContext.get [requestLevel, globalLevel] "base" =
      .ok (some baseGlobalObj, [requestLevel, globalLevel]) :=
  winery_c9_get_returns_shared_ancestor_object requestLevel globalLevel [] [] "base"
    baseGlobalObj rfl (by intro p hp; cases hp) rfl rfl

/-- C10: `needsUpdate` consults a dependency kind only when the requesting
scope's own definition declares an entry of that kind; with all three local
declaration lists empty it returns `false` for every object and every
depth — regardless of overrides declared at intermediate scopes — and `get`
therefore returns the ancestor's value unrebuilt, with no cache modified. -/
theorem winery_c10_needsUpdate_requires_local_declarations (self : ScopeLevel)
    (ancestors pre post : List ScopeLevel) (owner : ScopeLevel)
    (obj obj2 : NamedObject) (name : String) (depth : Nat)
    (ht : self.level.typeDefs = []) (hp : self.level.providerDefs = [])
    (hn : self.level.namedObjectDefs = []) :
    ScopedObjectContext.needsUpdate (self :: ancestors) obj depth = false ∧
    (ancestors = pre ++ owner :: post →
     registryGet self.cache name = none →
     (∀ p ∈ pre, registryGet p.cache name = none) →
     registryGet owner.cache name = some obj2 →
     ScopedObjectContext.get (self :: ancestors) name = .ok (some obj2, self :: ancestors)) :=
  by
  have hfalse : ∀ (o : NamedObject) (d : Nat),
      ScopedObjectContext.needsUpdate (self :: ancestors) o d = false := by
    intro o d
    cases ancestors with
    | nil => rfl
    | cons a rest => simp [ScopedObjectContext.needsUpdate, ht, hp, hn]
  refine ⟨hfalse obj depth, ?_⟩
  intro heq hself hpre howner
  subst heq
  exact get_found_in_ancestor self owner pre post name obj2 hself hpre howner
    (hfalse obj2 (1 + pre.length))

/-- Witness for C10: the three-level example chain, request scope declaring
nothing, application scope overriding builder `T`, global scope owning
`base` (which depends on type `T`): the request-scope `get` still returns
the untouched global object. -/
theorem winery_c10_needsUpdate_requires_local_declarations_witness :
    ScopedObjectContext.needsUpdate requestChain baseGlobalObj 7 = false ∧
    ScopedObjectContext.get requestChain "base" = .ok (some baseGlobalObj, requestChain) :=
  by
  have h := winery_c10_needsUpdate_requires_local_declarations requestLevel
    [appLevel, globalLevel] [appLevel] [] globalLevel baseGlobalObj baseGlobalObj
    "base" 7 rfl rfl rfl
  refine ⟨h.1, h.2 rfl rfl ?_ rfl⟩
  intro p hp
  simp at hp
  subst hp
  rfl

/-- C1 (failing on the code): in the spec section 8 example chain — global
scope declaring builder `T` and named object `base` tagged with `T`,
application scope overriding builder `T`, request scope declaring
nothing — the dependency record of `base` is exactly what the analysis
computes; a request-scope `get` of `base` (below the overriding scope)
returns the cached global-scope object unrebuilt, still labeled `global`
and still carrying the global-built value, leaving the chain unchanged —
the guards of `needsUpdate` skip every dependency kind the requester itself
declares no entries of; the rebuild does fire at the overriding application
scope itself, which returns a fresh application-labeled object built by the
overriding builder and caches it there. -/
theorem winery_c1_rebuild_missed_below_override :
    analyzeDirectDependencies emptyDeps baseRaw = .ok baseDeps ∧
    ScopedObjectContext.get requestChain "base" = .ok (some baseGlobalObj, requestChain) ∧
    baseGlobalObj.scope = "global" ∧
    baseGlobalObj.value = .vstr "global-built" ∧
    ScopedObjectContext.get appChain "base" =
      .ok (some baseAppObj, [{ appLevel with cache := [baseAppObj] }, globalLevel]) ∧
    baseAppObj.scope = "application" ∧
    baseAppObj.value = .vstr "app-built" :=
  ⟨rfl, rfl, rfl, rfl, rfl, rfl, rfl⟩

/-- C2 (failing on the code): feeding the multi-round resolution the cyclic
work list the claim describes — `A` with object-dependency set containing
`B` and `B` with set containing `A` — the loop returns success instead of
throwing: `Object.keys` applied to the JS `Set` of unresolved names is
always the empty array, so the zero-length test resolves every record in
the first round and the zero-progress error branch is unreachable; the
declarations come back with their dependency sets untouched. -/
theorem winery_c2_cycle_not_detected :
    resolveLoop [] cycleRecords = .ok [cycleDefA, cycleDefB] ∧
    cycleDefA.dependencies.objectDependencies = ["B"] ∧
    cycleDefB.dependencies.objectDependencies = ["A"] :=
  by
  refine ⟨?_, rfl, rfl⟩
  rw [cycleRecords, resolveLoop]
  simp [resolveRound, setAssoc, resolveLoop]

/-- C3 (failing on the code): on the acyclic chain `A` depending on `B`,
`B` on `C`, `C` on `D` (with `D` already resolved, having no
object-dependencies), construction does succeed, but the computed
object-dependency sets are not transitively closed: the loop resolves every
record in its first round without absorbing any closure (the absorb loop
iterates over `Object.keys` of a JS `Set`, which is empty), so the set of
`A` remains exactly `B` and never receives `C` or `D`. -/
theorem winery_c3_closure_not_transitive :
    resolveLoop [("D", [])] chainRecords = .ok [chainDefA, chainDefB, chainDefC] ∧
    chainDefA.dependencies.objectDependencies = ["B"] ∧
    ¬ "C" ∈ chainDefA.dependencies.objectDependencies ∧
    ¬ "D" ∈ chainDefA.dependencies.objectDependencies :=
  by
  refine ⟨?_, rfl, by decide, by decide⟩
  rw [chainRecords, resolveLoop]
  simp [resolveRound, setAssoc, resolveLoop]

mutual
theorem analyzeDirect_objectDeps :
    ∀ (v : JsValue) (dep r : ObjectContextDependency),
      analyzeDirectDependencies dep v = .ok r →
      r.objectDependencies = dep.objectDependencies
  | .vstr s, dep, r => by
    rw [analyzeDirectDependencies]
    cases h : uriTryParse s with
    | some u =>
      intro hr
      cases hr
      rfl
    | none =>
      intro hr
      cases hr
      rfl
  | .vnum n, dep, r => by
    intro hr
    simp only [analyzeDirectDependencies] at hr
    cases hr
    rfl
  | .vbool b, dep, r => by
    intro hr
    simp only [analyzeDirectDependencies] at hr
    cases hr
    rfl
  | .vnull, dep, r => by
    rw [analyzeDirectDependencies]
    intro hr
    cases hr
  | .varr elems, dep, r => by
    rw [analyzeDirectDependencies]
    exact analyzeDirectList_objectDeps elems dep r
  | .vobj fields, dep, r => by
    rw [analyzeDirectDependencies]
    intro hr
    have h1 := analyzeDirectFields_objectDeps fields _ r hr
    rw [h1]
    cases h : lookupField fields "_type" with
    | none => simp [h]
    | some tv =>
      cases tv <;> simp [h, ObjectContextDependency.setTypeDependency]

theorem analyzeDirectFields_objectDeps :
    ∀ (fs : List (String × JsValue)) (dep r : ObjectContextDependency),
      analyzeDirectFields dep fs = .ok r →
      r.objectDependencies = dep.objectDependencies
  | [], dep, r => by
    rw [analyzeDirectFields]
    intro hr
    cases hr
    rfl
  | (k, v) :: rest, dep, r => by
    rw [analyzeDirectFields]
    cases h : analyzeDirectDependencies dep v with
    | error e => intro hr; cases hr
    | ok dep1 =>
      intro hr
      rw [analyzeDirectFields_objectDeps rest dep1 r hr]
      exact analyzeDirect_objectDeps v dep dep1 h

theorem analyzeDirectList_objectDeps :
    ∀ (vs : List JsValue) (dep r : ObjectContextDependency),
      analyzeDirectList dep vs = .ok r →
      r.objectDependencies = dep.objectDependencies
  | [], dep, r => by
    rw [analyzeDirectList]
    intro hr
    cases hr
    rfl
  | v :: rest, dep, r => by
    rw [analyzeDirectList]
    cases h : analyzeDirectDependencies dep v with
    | error e => intro hr; cases hr
    | ok dep1 =>
      intro hr
      rw [analyzeDirectList_objectDeps rest dep1 r hr]
      exact analyzeDirect_objectDeps v dep dep1 h
end

lemma analyzeOneDef_ok_spec (levels : List CtxLevel) (d d1 : NamedObjectDef)
    (h : analyzeOneDef levels d = .ok d1) :
    ∃ deps, analyzeDirectDependencies emptyDeps d.value = .ok deps ∧
      d1 = { d with dependencies := deps } ∧
      (∀ t ∈ deps.typeDependencies,
        (ScopedObjectContextDef.getTypeDef levels t 32).isSome) ∧
      (∀ p ∈ deps.protocolDependencies,
        (ScopedObjectContextDef.getProviderDef levels p 32).isSome) :=
  by
  rw [analyzeOneDef] at h
  split at h
  · cases h
  next deps hd =>
    split at h
    · cases h
    next hft =>
      split at h
      · cases h
      next hfp =>
        cases h
        refine ⟨deps, hd, rfl, ?_, ?_⟩
        · intro t ht
          have := List.find?_eq_none.mp hft t ht
          simpa [Option.isNone_iff_eq_none, Option.isSome_iff_ne_none] using this
        · intro p hp
          have := List.find?_eq_none.mp hfp p hp
          simpa [Option.isNone_iff_eq_none, Option.isSome_iff_ne_none] using this

lemma analyzeOneDef_error_spec (levels : List CtxLevel) (d : NamedObjectDef)
    (e : AnalysisErr) (h : analyzeOneDef levels d = .error e) :
    (∃ m, e = .typeThrown m ∧ analyzeDirectDependencies emptyDeps d.value = .error m) ∨
    (∃ deps t, analyzeDirectDependencies emptyDeps d.value = .ok deps ∧
      e = .unrecognizedType t d.name ∧ t ∈ deps.typeDependencies ∧
      ScopedObjectContextDef.getTypeDef levels t 32 = none) ∨
    (∃ deps p, analyzeDirectDependencies emptyDeps d.value = .ok deps ∧
      e = .unrecognizedProtocol p d.name ∧ p ∈ deps.protocolDependencies ∧
      ScopedObjectContextDef.getProviderDef levels p 32 = none) :=
  by
  rw [analyzeOneDef] at h
  split at h
  next m hm =>
    cases h
    exact Or.inl ⟨m, rfl, hm⟩
  next deps hd =>
    split at h
    next t hft =>
      cases h
      refine Or.inr (Or.inl ⟨deps, t, hd, rfl, List.mem_of_find?_eq_some hft, ?_⟩)
      have := List.find?_some hft
      simpa [Option.isNone_iff_eq_none] using this
    next hft =>
      split at h
      next p hfp =>
        cases h
        refine Or.inr (Or.inr ⟨deps, p, hd, rfl, List.mem_of_find?_eq_some hfp, ?_⟩)
        have := List.find?_some hfp
        simpa [Option.isNone_iff_eq_none] using this
      next hfp => cases h

lemma analyzePass1_ok_spec :
    ∀ (levels : List CtxLevel) (ds ds1 : List NamedObjectDef),
      analyzePass1 levels ds = .ok ds1 →
      (∀ d ∈ ds, ∃ d1, analyzeOneDef levels d = .ok d1) ∧
      (∀ d1 ∈ ds1, ∃ d, analyzeOneDef levels d = .ok d1)
  | levels, [], ds1, h => by
    rw [analyzePass1] at h
    cases h
    exact ⟨(by intro d hd; cases hd), (by intro d1 hd1; cases hd1)⟩
  | levels, d :: ds, ds1, h => by
    rw [analyzePass1] at h
    split at h
    · cases h
    next d1 hd1 =>
      split at h
      · cases h
      next ds2 hds2 =>
        cases h
        have ih := analyzePass1_ok_spec levels ds ds2 hds2
        constructor
        · intro x hx
          cases hx with
          | head => exact ⟨d1, hd1⟩
          | tail _ hx => exact ih.1 x hx
        · intro x hx
          cases hx with
          | head => exact ⟨d, hd1⟩
          | tail _ hx => exact ih.2 x hx

lemma analyzePass1_error_spec :
    ∀ (levels : List CtxLevel) (ds : List NamedObjectDef) (e : AnalysisErr),
      analyzePass1 levels ds = .error e →
      ∃ d ∈ ds, analyzeOneDef levels d = .error e
  | levels, [], e, h => by rw [analyzePass1] at h; cases h
  | levels, d :: ds, e, h => by
    rw [analyzePass1] at h
    split at h
    next e1 he1 =>
      cases h
      exact ⟨d, List.mem_cons_self _ _, he1⟩
    next d1 hd1 =>
      split at h
      next e1 he1 =>
        cases h
        rcases analyzePass1_error_spec levels ds e he1 with ⟨x, hx, hex⟩
        exact ⟨x, List.mem_cons_of_mem _ hx, hex⟩
      next ds2 hds2 => cases h

lemma buildResolution_no_records :
    ∀ (ds : List NamedObjectDef) (res : List (String × List String)),
      (∀ d ∈ ds, d.dependencies.objectDependencies = []) →
      (buildResolution ds res).2 = []
  | [], res, _ => rfl
  | d :: ds, res, h => by
    have hd := h d (List.mem_cons_self _ _)
    rw [buildResolution]
    simp only [hd, List.isEmpty_nil, if_true, ite_true]
    exact buildResolution_no_records ds _ (fun x hx => h x (List.mem_cons_of_mem _ hx))

lemma analyze_ok_of_pass1_ok (levels : List CtxLevel) (ds ds1 : List NamedObjectDef)
    (h : analyzePass1 levels ds = .ok ds1) :
    analyzeNamedObjectDependencies levels ds =
      .ok (ds1.map (fun d => (findByName [] d.name).getD d)) :=
  by
  have hempty : ∀ d1 ∈ ds1, d1.dependencies.objectDependencies = [] := by
    intro d1 hd1
    rcases (analyzePass1_ok_spec levels ds ds1 h).2 d1 hd1 with ⟨d, hd⟩
    rcases analyzeOneDef_ok_spec levels d d1 hd with ⟨deps, hdeps, hval, _, _⟩
    have := analyzeDirect_objectDeps d.value emptyDeps deps hdeps
    rw [hval]
    simpa [emptyDeps] using this
  rw [analyzeNamedObjectDependencies, h]
  have hrec := buildResolution_no_records ds1 [] hempty
  simp only [hrec]
  rw [resolveLoop]

/-- C6: when some declared named object's raw value yields a type
dependency with no builder declaration reachable in the definition chain
(with the default budget of 32), or a protocol dependency with no resolver
declaration, dependency analysis — and with it the scope-definition
constructor run with analysis enabled — fails with an error; and any
unrecognized-type (resp. unrecognized-protocol) error it raises names an
extracted, genuinely unresolvable dependency together with the name of the
declared object that referenced it. -/
theorem winery_c6_construction_fails_on_unresolvable (parents : List CtxLevel)
    (ts : List TypeDef) (ps : List ProviderDef) (ds : List NamedObjectDef)
    (d : NamedObjectDef) (deps : ObjectContextDependency)
    (hd : d ∈ ds)
    (hdeps : analyzeDirectDependencies emptyDeps d.value = .ok deps)
    (hbad : (∃ t ∈ deps.typeDependencies,
        ScopedObjectContextDef.getTypeDef (⟨ts, ps, ds⟩ :: parents) t 32 = none) ∨
      (∃ p ∈ deps.protocolDependencies,
        ScopedObjectContextDef.getProviderDef (⟨ts, ps, ds⟩ :: parents) p 32 = none)) :
    (∃ e, analyzeNamedObjectDependencies (⟨ts, ps, ds⟩ :: parents) ds = .error e ∧
      ScopedObjectContextDef.construct parents ts ps ds true = .error e) ∧
    (∀ t n, analyzeNamedObjectDependencies (⟨ts, ps, ds⟩ :: parents) ds =
        .error (.unrecognizedType t n) →
      ∃ d2 ∈ ds, d2.name = n ∧
        ∃ deps2, analyzeDirectDependencies emptyDeps d2.value = .ok deps2 ∧
          t ∈ deps2.typeDependencies ∧
          ScopedObjectContextDef.getTypeDef (⟨ts, ps, ds⟩ :: parents) t 32 = none) ∧
    (∀ p n, analyzeNamedObjectDependencies (⟨ts, ps, ds⟩ :: parents) ds =
        .error (.unrecognizedProtocol p n) →
      ∃ d2 ∈ ds, d2.name = n ∧
        ∃ deps2, analyzeDirectDependencies emptyDeps d2.value = .ok deps2 ∧
          p ∈ deps2.protocolDependencies ∧
          ScopedObjectContextDef.getProviderDef (⟨ts, ps, ds⟩ :: parents) p 32 = none) :=
  by
  refine ⟨?_, ?_, ?_⟩
  · cases h1 : analyzePass1 (⟨ts, ps, ds⟩ :: parents) ds with
    | error e =>
      have hA : analyzeNamedObjectDependencies (⟨ts, ps, ds⟩ :: parents) ds = .error e := by
        rw [analyzeNamedObjectDependencies, h1]
      exact ⟨e, hA, by simp [ScopedObjectContextDef.construct, hA]⟩
    | ok ds1 =>
      exfalso
      rcases (analyzePass1_ok_spec _ ds ds1 h1).1 d hd with ⟨d1, hd1⟩
      rcases analyzeOneDef_ok_spec _ d d1 hd1 with ⟨deps2, hdeps2, _, hT, hP⟩
      have hde : deps2 = deps := by
        rw [hdeps] at hdeps2
        cases hdeps2
        rfl
      subst hde
      rcases hbad with ⟨t, ht, hnone⟩ | ⟨p, hp, hnone⟩
      · have := hT t ht
        rw [hnone] at this
        cases this
      · have := hP p hp
        rw [hnone] at this
        cases this
  · intro t n hE
    cases h1 : analyzePass1 (⟨ts, ps, ds⟩ :: parents) ds with
    | ok ds1 =>
      rw [analyze_ok_of_pass1_ok _ ds ds1 h1] at hE
      cases hE
    | error e =>
      rw [analyzeNamedObjectDependencies, h1] at hE
      cases hE
      rcases analyzePass1_error_spec _ ds _ h1 with ⟨d2, hd2, herr⟩
      rcases analyzeOneDef_error_spec _ d2 _ herr with
        ⟨m, hm, _⟩ | ⟨deps2, t2, hdeps2, hename, hmem, hnone⟩ |
          ⟨deps2, p2, hdeps2, hename, hmem, hnone⟩
      · cases hm
      · cases hename
        exact ⟨d2, hd2, rfl, deps2, hdeps2, hmem, hnone⟩
      · cases hename
  · intro p n hE
    cases h1 : analyzePass1 (⟨ts, ps, ds⟩ :: parents) ds with
    | ok ds1 =>
      rw [analyze_ok_of_pass1_ok _ ds ds1 h1] at hE
      cases hE
    | error e =>
      rw [analyzeNamedObjectDependencies, h1] at hE
      cases hE
      rcases analyzePass1_error_spec _ ds _ h1 with ⟨d2, hd2, herr⟩
      rcases analyzeOneDef_error_spec _ d2 _ herr with
        ⟨m, hm, _⟩ | ⟨deps2, t2, hdeps2, hename, hmem, hnone⟩ |
          ⟨deps2, p2, hdeps2, hename, hmem, hnone⟩
      · cases hm
      · cases hename
      · cases hename
        exact ⟨d2, hd2, rfl, deps2, hdeps2, hmem, hnone⟩

/-- Witness for C6: a single scope declaring no builders and the named
object `obj1` tagged with the undeclared type `T`; analysis and
construction fail, and the raised unrecognized-type error names `T`
and `obj1` genuinely. -/
theorem winery_c6_construction_fails_on_unresolvable_witness :
    (∃ e, analyzeNamedObjectDependencies [⟨[], [], [orphanDef]⟩] [orphanDef] = .error e ∧
      ScopedObjectContextDef.construct [] [] [] [orphanDef] true = .error e) ∧
    (∃ d2 ∈ [orphanDef], d2.name = "obj1" ∧
      ∃ deps2, analyzeDirectDependencies emptyDeps d2.value = .ok deps2 ∧
        "T" ∈ deps2.typeDependencies ∧
        ScopedObjectContextDef.getTypeDef [⟨[], [], [orphanDef]⟩] "T" 32 = none) :=
  by
  have h := winery_c6_construction_fails_on_unresolvable [] [] [] [orphanDef] orphanDef
    ⟨["T"], [], []⟩ (by simp) rfl (Or.inl ⟨"T", by simp, rfl⟩)
  exact ⟨h.1, h.2.1 "T" "obj1" rfl⟩
